import Mathlib

/-!
Shallow embedding of the FP2 personal-finance ledger core:
the currency rate-resolution service (currency/services.py), the
transaction posting serializer (transactions/serializers.py), the
auto-debit execution service (transactions/services.py) and the
card-purchase installment generator, together with proofs of the
behavioural claims about them.

Monetary amounts (Python Decimal) are modelled as exact rationals.
Calendar dates (Python datetime.date) are modelled as year/month/day
triples with the arithmetic of timedelta and dateutil.relativedelta.
Database/cache state is modelled as explicit record state threaded
through the operations.
-/

namespace FP2

/-! ## Calendar dates -/

/-- A calendar date, mirroring Python `datetime.date`. -/
structure Date where
  y : Int
  m : Int
  d : Int
deriving DecidableEq, Repr

/-- Gregorian leap-year rule. -/
def isLeapYear (y : Int) : Bool :=
  decide ((y % 4 = 0 ∧ y % 100 ≠ 0) ∨ y % 400 = 0)

/-- Number of days in a month of a given year. -/
def daysInMonth (y m : Int) : Int :=
  if m = 2 then (if isLeapYear y then 29 else 28)
  else if m = 4 ∨ m = 6 ∨ m = 9 ∨ m = 11 then 30
  else 31

/-- The successor day of a date. -/
def nextDay (dt : Date) : Date :=
  if dt.d < daysInMonth dt.y dt.m then ⟨dt.y, dt.m, dt.d + 1⟩
  else if dt.m < 12 then ⟨dt.y, dt.m + 1, 1⟩
  else ⟨dt.y + 1, 1, 1⟩

/-- Add `n` days to a date; `timedelta(days=n)` for nonnegative `n`. -/
def addDays (dt : Date) (n : Nat) : Date := nextDay^[n] dt

/-- Add `n` calendar months, clamping the day to the length of the target
month; `dateutil.relativedelta(months=n)`. -/
def addMonths (dt : Date) (n : Int) : Date :=
  let t := dt.y * 12 + (dt.m - 1) + n
  let ny := t.fdiv 12
  let nm := t.emod 12 + 1
  ⟨ny, nm, min dt.d (daysInMonth ny nm)⟩

/-- Add `n` calendar years, clamping Feb 29 to Feb 28;
`dateutil.relativedelta(years=n)`. -/
def addYears (dt : Date) (n : Int) : Date :=
  ⟨dt.y + n, dt.m, min dt.d (daysInMonth (dt.y + n) dt.m)⟩

/-- Date comparison, as Python compares `date` values (lexicographically on
year, month, day). -/
def dateLe (a b : Date) : Bool :=
  decide (a.y < b.y ∨ (a.y = b.y ∧ (a.m < b.m ∨ (a.m = b.m ∧ a.d ≤ b.d))))

/-! ## Transactions and ledger state -/

/-- The `transaction_type` choices of the `Transaction` model. -/
inductive TxType
  | income
  | expense
  | transfer
deriving DecidableEq, Repr

/-- The `origin` choices of the `Transaction` model. -/
inductive TxOrigin
  | manual
  | card
  | autoDebit
  | installment
  | transfer
  | imported
deriving DecidableEq, Repr

/-- A `Transaction` row: the financially relevant fields of
`transactions.models.Transaction`. -/
structure Txn where
  txid : Nat
  account : Nat
  targetAccount : Option Nat
  date : Date
  amount : Rat
  currency : String
  txType : TxType
  origin : TxOrigin
  cardPurchase : Option Nat
  isConfirmed : Bool
deriving DecidableEq, Repr

/-- Ledger state: each account's current balance, the
`allows_negative_balance` flag of each account's account-type, and the
stored transaction rows in creation order. -/
structure LedgerState where
  balances : Nat → Rat
  allowsNegative : Nat → Bool
  txns : List Txn

/-- The balance-mutation direction argument of
`TransactionSerializer._update_account_balance`. -/
inductive BalanceOp
  | add
  | subtract
deriving DecidableEq

/-- `TransactionSerializer._update_account_balance`: income adds the amount
to the primary account, expense and transfer subtract it; `subtract`
reverses those polarities. -/
def updateAccountBalance (op : BalanceOp) (t : Txn) (s : LedgerState) : LedgerState :=
  let delta : Rat :=
    match op, t.txType with
    | .add, .income => t.amount
    | .add, .expense => -t.amount
    | .add, .transfer => -t.amount
    | .subtract, .income => -t.amount
    | .subtract, .expense => t.amount
    | .subtract, .transfer => t.amount
  { s with balances := fun a => if a = t.account then s.balances a + delta else s.balances a }

/-- The mirrored income transaction that
`TransactionSerializer._create_transfer_counterpart` creates on the target
account: type income, origin transfer, amount, currency and date copied
from the source transaction. -/
def mirrorTxn (newId : Nat) (t : Txn) : Txn :=
  { txid := newId
    account := t.targetAccount.getD 0
    targetAccount := none
    date := t.date
    amount := t.amount
    currency := t.currency
    txType := .income
    origin := .transfer
    cardPurchase := none
    isConfirmed := true }

/-- `TransactionSerializer._create_transfer_counterpart`: store the mirror
transaction and add the amount to the target account's balance. -/
def createTransferCounterpart (newId : Nat) (t : Txn) (s : LedgerState) : LedgerState :=
  let m := mirrorTxn newId t
  { s with
    txns := s.txns ++ [m]
    balances := fun a => if a = m.account then s.balances a + t.amount else s.balances a }

/-- `TransactionSerializer.create`: store the transaction, apply its
balance effect to the primary account, and for a transfer create the
mirror transaction on the target account. -/
def serializerCreate (mirrorId : Nat) (t : Txn) (s : LedgerState) : LedgerState :=
  let s1 := { s with txns := s.txns ++ [t] }
  let s2 := updateAccountBalance .add t s1
  if t.txType = .transfer then createTransferCounterpart mirrorId t s2 else s2

/-- Replace the stored row with id `oldId` by `nt`, as Django's
`super().update` overwrites the instance's fields in place. -/
def replaceTxn (oldId : Nat) (nt : Txn) (l : List Txn) : List Txn :=
  l.map (fun x => if x.txid = oldId then nt else x)

/-- `TransactionSerializer.update`: reverse the old transaction's balance
effect, overwrite the row, then apply the new transaction's balance
effect. -/
def serializerUpdate (old nt : Txn) (s : LedgerState) : LedgerState :=
  let s1 := updateAccountBalance .subtract old s
  let s2 := { s1 with txns := replaceTxn old.txid nt s1.txns }
  updateAccountBalance .add nt s2

/-- `TransactionViewSet.confirm`: set `is_confirmed = True` on the chosen
transaction and save only that field; no balance is touched. -/
def confirmTransaction (txId : Nat) (s : LedgerState) : LedgerState :=
  { s with txns := s.txns.map (fun x => if x.txid = txId then { x with isConfirmed := true } else x) }

/-- `Account.clean`: the model-validation check that a negative balance is
only allowed when the account-type's `allows_negative_balance` flag is
set. Returns `false` when validation would raise. -/
def accountCleanOk (balance : Rat) (allowsNeg : Bool) : Bool :=
  !(decide (balance < 0) && !allowsNeg)

/-! ## Currency service -/

/-- A persisted `ExchangeRate` row: ordered pair, rate, timestamp. The
timestamp is in hours so that the 24-hour freshness window and the
calendar-day upsert bucket are both expressible. -/
structure ExchangeRateRow where
  fromCode : String
  toCode : String
  rate : Rat
  date : Int
deriving DecidableEq, Repr

/-- One Django-cache entry: key, cached rate and absolute expiry time. -/
structure CacheEntry where
  key : String
  rate : Rat
  expiresAt : Int
deriving DecidableEq, Repr

/-- An appended `ConversionLog` row. -/
structure ConversionLogRow where
  fromCode : String
  toCode : String
  originalAmount : Rat
  convertedAmount : Rat
  exchangeRate : Rat
  context : String
  userId : String
deriving DecidableEq, Repr

/-- State touched by `CurrencyService`: the Django cache, the persisted
`ExchangeRate` rows (newest first, matching the model's `-date`
ordering), the append-only conversion log, and the `Currency` table's
`decimal_places` column keyed by code. -/
structure CurrencyState where
  cache : List CacheEntry
  dbRates : List ExchangeRateRow
  logs : List ConversionLogRow
  decimalPlaces : List (String × Nat)
deriving DecidableEq, Repr

/-- Python truthiness of an optional Decimal: `None` and `0` are falsy. -/
def truthy : Option Rat → Bool
  | none => false
  | some r => r != 0

/-- The cache key used by `_get_cached_rate` and `_cache_rate`. -/
def rateCacheKey (f t : String) : String :=
  "exchange_rate_" ++ f ++ "_" ++ t

/-- `cache.get`: the value of a non-expired entry for the key, if any. -/
def cacheGet (now : Int) (c : List CacheEntry) (k : String) : Option Rat :=
  (c.find? (fun e => e.key == k && decide (now < e.expiresAt))).map (fun e => e.rate)

/-- `cache.set` with a time-to-live: store the value under the key,
superseding any previous entry for it. -/
def cacheSet (now ttl : Int) (c : List CacheEntry) (k : String) (r : Rat) : List CacheEntry :=
  ⟨k, r, now + ttl⟩ :: c.filter (fun e => e.key != k)

/-- `CurrencyService._cache_rate`. -/
def cacheRate (now ttl : Int) (f t : String) (r : Rat) (s : CurrencyState) : CurrencyState :=
  { s with cache := cacheSet now ttl s.cache (rateCacheKey f t) r }

/-- `CurrencyService._get_db_rate`: the latest persisted rate for the exact
ordered pair dated within the last 24 hours. -/
def getDbRate (now : Int) (s : CurrencyState) (f t : String) : Option Rat :=
  (s.dbRates.find? (fun e => e.fromCode == f && e.toCode == t && decide (now - 24 ≤ e.date))).map
    (fun e => e.rate)

/-- `CurrencyService._get_inverse_rate`: take the latest persisted rate for
the reversed pair, and return its reciprocal when it is strictly
positive. -/
def getInverseRate (s : CurrencyState) (f t : String) : Option Rat :=
  match s.dbRates.find? (fun e => e.fromCode == t && e.toCode == f) with
  | some e => if e.rate > 0 then some (1 / e.rate) else none
  | none => none

/-- `CurrencyService._fetch_rate_from_api`: a single attempt against the
external provider, modelled by the oracle `fetchSingle`. When the target
is the base currency ARS the provider is queried via USD and the two
rates are multiplied; on any failure of that composition the direct
quote is attempted. Without an API key the fetch fails. -/
def fetchRateFromApi (fetchSingle : String → String → Option Rat) (hasApiKey : Bool)
    (f t : String) : Option Rat :=
  if !hasApiKey then none
  else if t == "ARS" then
    let usdToArs := fetchSingle "USD" "ARS"
    let fromToUsd := fetchSingle f "USD"
    if truthy usdToArs && truthy fromToUsd then
      some (fromToUsd.getD 0 * usdToArs.getD 0)
    else fetchSingle f t
  else fetchSingle f t

/-- `CurrencyService._save_rate_to_db`: upsert keyed by the pair and the
calendar day (hour timestamps bucketed by 24); an existing row for the
same pair and day gets the new rate, otherwise a new row dated now is
prepended (newest first). -/
def saveRateToDb (now : Int) (f t : String) (r : Rat) (s : CurrencyState) : CurrencyState :=
  let sameDay : ExchangeRateRow → Bool := fun e =>
    e.fromCode == f && e.toCode == t && e.date.fdiv 24 == now.fdiv 24
  if s.dbRates.any sameDay then
    { s with dbRates := s.dbRates.map (fun e => if sameDay e then { e with rate := r } else e) }
  else
    { s with dbRates := ⟨f, t, r, now⟩ :: s.dbRates }

/-- Fallback step 4 of `CurrencyService.get_exchange_rate`: the inverse
rate, returned without caching or persisting anything. -/
def rateStep4 (s : CurrencyState) (f t : String) : Option Rat × CurrencyState :=
  match getInverseRate s f t with
  | some r => if r = 0 then (none, s) else (some r, s)
  | none => (none, s)

/-- Fallback step 3 of `CurrencyService.get_exchange_rate`: the external
source; on success the rate is persisted and cached. -/
def rateStep3 (fetchSingle : String → String → Option Rat) (hasApiKey : Bool) (now ttl : Int)
    (f t : String) (s : CurrencyState) : Option Rat × CurrencyState :=
  match fetchRateFromApi fetchSingle hasApiKey f t with
  | some r =>
      if r = 0 then rateStep4 s f t
      else (some r, cacheRate now ttl f t r (saveRateToDb now f t r s))
  | none => rateStep4 s f t

/-- Fallback step 2 of `CurrencyService.get_exchange_rate`: the recent
persisted rate; on hit the cache is refreshed with it. -/
def rateStep2 (fetchSingle : String → String → Option Rat) (hasApiKey : Bool) (now ttl : Int)
    (f t : String) (s : CurrencyState) : Option Rat × CurrencyState :=
  match getDbRate now s f t with
  | some r =>
      if r = 0 then rateStep3 fetchSingle hasApiKey now ttl f t s
      else (some r, cacheRate now ttl f t r s)
  | none => rateStep3 fetchSingle hasApiKey now ttl f t s

/-- `CurrencyService.get_exchange_rate`: 1 for the identical pair, else the
cache, the recent persisted rate, the external source and the inverse
rate are tried in that order; `None` when every step misses. -/
def getExchangeRate (fetchSingle : String → String → Option Rat) (hasApiKey : Bool) (now ttl : Int)
    (f t : String) (s : CurrencyState) : Option Rat × CurrencyState :=
  if f == t then (some 1, s)
  else
    match cacheGet now s.cache (rateCacheKey f t) with
    | some r =>
        if r = 0 then rateStep2 fetchSingle hasApiKey now ttl f t s
        else (some r, s)
    | none => rateStep2 fetchSingle hasApiKey now ttl f t s

/-- `CurrencyService._get_currency_decimal_places`: the currency's
configured precision, defaulting to 2 when the code is unknown. -/
def currencyDecimalPlaces (s : CurrencyState) (code : String) : Nat :=
  ((s.decimalPlaces.find? (fun p => p.1 == code)).map (fun p => p.2)).getD 2

/-- `Decimal.quantize(..., rounding=ROUND_HALF_UP)`: round to `places`
decimal digits, ties away from zero. -/
def roundHalfUp (q : Rat) (places : Nat) : Rat :=
  let scale : Rat := (10 : Rat) ^ places
  let scaled := q * scale
  let r : Int := if scaled ≥ 0 then ⌊scaled + 1 / 2⌋ else -⌊-scaled + 1 / 2⌋
  (r : Rat) / scale

/-- `CurrencyService._log_conversion`: append one audit row. -/
def logConversion (f t : String) (originalAmount convertedAmount exchangeRate : Rat)
    (context userId : String) (s : CurrencyState) : CurrencyState :=
  { s with logs := s.logs ++ [⟨f, t, originalAmount, convertedAmount, exchangeRate, context, userId⟩] }

/-- `CurrencyService.convert_amount`: identical currencies short-circuit to
the unmodified amount; otherwise resolve the rate (failing with a
rate-unavailable error when it cannot be resolved), multiply, round
half-up to the target currency's precision, and append one conversion
log row. -/
def convertAmount (fetchSingle : String → String → Option Rat) (hasApiKey : Bool) (now ttl : Int)
    (amount : Rat) (f t : String) (context userId : String) (s : CurrencyState) :
    Except String Rat × CurrencyState :=
  if f == t then (.ok amount, s)
  else
    match getExchangeRate fetchSingle hasApiKey now ttl f t s with
    | (rate?, s1) =>
      if !truthy rate? then (.error "rate unavailable", s1)
      else
        let rate := rate?.getD 0
        let converted := roundHalfUp (amount * rate) (currencyDecimalPlaces s1 t)
        (.ok converted, logConversion f t amount converted rate context userId s1)

/-! ## Auto-debits -/

/-- The `frequency` choices of the `AutoDebit` model. -/
inductive Frequency
  | daily
  | weekly
  | biweekly
  | monthly
  | quarterly
  | yearly
deriving DecidableEq, Repr

/-- The `status` choices of the `AutoDebit` model. -/
inductive DebitStatus
  | active
  | paused
  | cancelled
deriving DecidableEq, Repr

/-- An `AutoDebit` row: the fields read and written by the execution
service. -/
structure AutoDebit where
  name : String
  account : Nat
  amount : Rat
  currency : String
  frequency : Frequency
  startDate : Date
  endDate : Option Date
  nextExecution : Date
  lastExecution : Option Date
  status : DebitStatus
  executionCount : Nat
  failedAttempts : Nat
  dayOfMonth : Option Int
deriving DecidableEq, Repr

/-- `AutoDebit.calculate_next_execution`: the start date before any
execution, otherwise the last execution advanced by the frequency rule;
monthly debits with a day-of-month anchor clamp the day to
`min(anchor, 28)`. -/
def calculateNextExecution (ad : AutoDebit) : Date :=
  match ad.lastExecution with
  | none => ad.startDate
  | some last =>
    match ad.frequency with
    | .daily => addDays last 1
    | .weekly => addDays last 7
    | .biweekly => addDays last 14
    | .monthly =>
        let nd := addMonths last 1
        match ad.dayOfMonth with
        | some dom => if dom != 0 then { nd with d := min dom 28 } else nd
        | none => nd
    | .quarterly => addMonths last 3
    | .yearly => addYears last 1

/-- `AutoDebit.can_execute`: active, due, and not past the optional end
date. -/
def canExecute (today : Date) (ad : AutoDebit) : Bool :=
  (ad.status == .active) && dateLe ad.nextExecution today &&
    (match ad.endDate with
     | none => true
     | some e => dateLe today e)

/-- The `try` block of `TransactionService.execute_auto_debit`: with
insufficient funds on an account that does not allow a negative balance,
record one failed attempt and raise; otherwise create the confirmed
expense transaction, subtract the amount from the account, and update
the debit's bookkeeping, anchoring the new `next_execution` on the new
`last_execution`. -/
def executeAutoDebitTry (today : Date) (txId : Nat) (ad : AutoDebit) (s : LedgerState) :
    Except String Txn × AutoDebit × LedgerState :=
  if decide (s.balances ad.account < ad.amount) && !s.allowsNegative ad.account then
    (.error "Saldo insuficiente para ejecutar el debito",
      { ad with failedAttempts := ad.failedAttempts + 1 }, s)
  else
    let tx : Txn :=
      { txid := txId
        account := ad.account
        targetAccount := none
        date := today
        amount := ad.amount
        currency := ad.currency
        txType := .expense
        origin := .autoDebit
        cardPurchase := none
        isConfirmed := true }
    let s1 : LedgerState :=
      { s with
        txns := s.txns ++ [tx]
        balances := fun a => if a = ad.account then s.balances a - ad.amount else s.balances a }
    let ad1 := { ad with
      lastExecution := some today
      executionCount := ad.executionCount + 1
      failedAttempts := 0 }
    let ad2 := { ad1 with nextExecution := calculateNextExecution ad1 }
    (.ok tx, ad2, s1)

/-- `TransactionService.execute_auto_debit`: guard on `can_execute` (raised
before the `try` block, so without touching `failed_attempts`), run the
body, and on any exception from the body record one more failed attempt
and re-raise. -/
def executeAutoDebit (today : Date) (txId : Nat) (ad : AutoDebit) (s : LedgerState) :
    Except String Txn × AutoDebit × LedgerState :=
  if !canExecute today ad then (.error "El debito no puede ejecutarse", ad, s)
  else
    match executeAutoDebitTry today txId ad s with
    | (.error e, ad1, s1) =>
        (.error e, { ad1 with failedAttempts := ad1.failedAttempts + 1 }, s1)
    | ok => ok

/-- The aggregate result of `TransactionService.execute_pending_debits`. -/
structure DebitRunResults where
  executed : Nat
  failed : Nat
  errors : List (String × String)
deriving DecidableEq, Repr

/-- The selection filter of `execute_pending_debits`: active status and
`next_execution <= today`; the end date is not consulted. -/
def isPendingDebit (today : Date) (ad : AutoDebit) : Bool :=
  (ad.status == .active) && dateLe ad.nextExecution today

/-- The per-item loop of `execute_pending_debits`: each debit is executed
independently; a success increments the executed counter, an exception
increments the failed counter and records the per-item error. -/
def runPendingAux (today : Date) : Nat → List AutoDebit → LedgerState → DebitRunResults →
    DebitRunResults × List AutoDebit × LedgerState
  | _, [], s, res => (res, [], s)
  | txId, ad :: rest, s, res =>
    match executeAutoDebit today txId ad s with
    | (.ok _, ad1, s1) =>
        let r := runPendingAux today (txId + 1) rest s1
          { res with executed := res.executed + 1 }
        (r.1, ad1 :: r.2.1, r.2.2)
    | (.error e, ad1, s1) =>
        let r := runPendingAux today (txId + 1) rest s1
          { res with failed := res.failed + 1, errors := res.errors ++ [(ad.name, e)] }
        (r.1, ad1 :: r.2.1, r.2.2)

/-- `TransactionService.execute_pending_debits`: select the active debits
whose next execution is due and execute each one independently,
aggregating executed/failed counts and per-item errors. -/
def executePendingDebits (today : Date) (baseTxId : Nat) (debits : List AutoDebit)
    (s : LedgerState) : DebitRunResults × List AutoDebit × LedgerState :=
  runPendingAux today baseTxId (debits.filter (isPendingDebit today)) s ⟨0, 0, []⟩

/-! ## Card purchases -/

/-- A `CardPurchase` row: the fields computed and stored by
`CardPurchaseSerializer.create`. -/
structure CardPurchase where
  pid : Nat
  account : Nat
  totalAmount : Rat
  currency : String
  totalInstallments : Nat
  installmentAmount : Rat
  interestRate : Rat
  totalWithInterest : Rat
  firstInstallmentDate : Date
  purchaseDate : Date
  currentInstallment : Nat
deriving DecidableEq, Repr

/-- The loop body of
`CardPurchaseSerializer._generate_installment_transactions`: one
unconfirmed expense transaction per remaining installment, each dated one
calendar month after the previous one and linked to the purchase. -/
def generateInstallmentsAux (cp : CardPurchase) (baseId : Nat) :
    Date → Nat → List Txn
  | _, 0 => []
  | cur, r + 1 =>
      { txid := baseId + (cp.totalInstallments - (r + 1))
        account := cp.account
        targetAccount := none
        date := cur
        amount := cp.installmentAmount
        currency := cp.currency
        txType := .expense
        origin := .installment
        cardPurchase := some cp.pid
        isConfirmed := false } :: generateInstallmentsAux cp baseId (addMonths cur 1) r

/-- `CardPurchaseSerializer._generate_installment_transactions`: store the
generated installment transactions; no balance is touched. -/
def generateInstallmentTransactions (cp : CardPurchase) (baseId : Nat) (s : LedgerState) :
    LedgerState :=
  { s with txns := s.txns ++ generateInstallmentsAux cp baseId cp.firstInstallmentDate cp.totalInstallments }

/-- `CardPurchaseSerializer.create`: compound monthly interest when the
rate is positive, even division of the total across installments, one
immediate confirmed expense transaction for the full principal dated at
the purchase date, then the generated installment transactions. -/
def cardPurchaseCreate (pid baseId : Nat) (account : Nat) (totalAmount : Rat) (currency : String)
    (installments : Nat) (interestRate : Rat) (firstDate purchaseDate : Date) (s : LedgerState) :
    CardPurchase × LedgerState :=
  let totalWithInterest :=
    if interestRate > 0 then totalAmount * (1 + interestRate / 100) ^ installments
    else totalAmount
  let installmentAmount := totalWithInterest / (installments : Rat)
  let originalTxn : Txn :=
    { txid := baseId
      account := account
      targetAccount := none
      date := purchaseDate
      amount := totalAmount
      currency := currency
      txType := .expense
      origin := .card
      cardPurchase := none
      isConfirmed := true }
  let s1 := { s with txns := s.txns ++ [originalTxn] }
  let cp : CardPurchase :=
    { pid := pid
      account := account
      totalAmount := totalAmount
      currency := currency
      totalInstallments := installments
      installmentAmount := installmentAmount
      interestRate := interestRate
      totalWithInterest := totalWithInterest
      firstInstallmentDate := firstDate
      purchaseDate := purchaseDate
      currentInstallment := 0 }
  (cp, generateInstallmentTransactions cp (baseId + 1) s1)

/-! ## Helper lemmas -/

/-- The financially meaningful fields of an installment transaction,
projected out so that statements do not depend on the synthetic row
ids. -/
def installmentView (x : Txn) :
    Nat × Rat × String × TxType × TxOrigin × Option Nat × Bool × Date :=
  (x.account, x.amount, x.currency, x.txType, x.origin, x.cardPurchase, x.isConfirmed, x.date)

theorem generateInstallmentsAux_length (cp : CardPurchase) (baseId : Nat) :
    ∀ (r : Nat) (cur : Date), (generateInstallmentsAux cp baseId cur r).length = r := by
  intro r
  induction r with
  | zero => intro cur; rfl
  | succ n ih =>
      intro cur
      simp [generateInstallmentsAux, ih]

theorem generateInstallmentsAux_view (cp : CardPurchase) (baseId : Nat) :
    ∀ (r : Nat) (cur : Date) (j : Nat), j < r →
      ((generateInstallmentsAux cp baseId cur r)[j]?).map installmentView =
        some (cp.account, cp.installmentAmount, cp.currency, .expense, .installment,
          some cp.pid, false, (fun dd => addMonths dd 1)^[j] cur) := by
  intro r
  induction r with
  | zero => intro cur j hj; omega
  | succ n ih =>
      intro cur j hj
      cases j with
      | zero => simp [generateInstallmentsAux, installmentView]
      | succ k =>
          have hk : k < n := by omega
          simp only [generateInstallmentsAux, List.getElem?_cons_succ]
          rw [ih (addMonths cur 1) k hk]
          rw [Function.iterate_succ_apply]

theorem cacheRate_dbRates (now ttl : Int) (f t : String) (r : Rat) (s : CurrencyState) :
    (cacheRate now ttl f t r s).dbRates = s.dbRates := rfl

theorem cacheRate_logs (now ttl : Int) (f t : String) (r : Rat) (s : CurrencyState) :
    (cacheRate now ttl f t r s).logs = s.logs := rfl

theorem rateStep4_logs (s : CurrencyState) (f t : String) :
    (rateStep4 s f t).2.logs = s.logs := by
  unfold rateStep4
  cases getInverseRate s f t with
  | none => rfl
  | some r =>
      by_cases hr : r = 0 <;> simp [hr]

theorem rateStep3_logs (fetchSingle : String → String → Option Rat) (hasApiKey : Bool)
    (now ttl : Int) (f t : String) (s : CurrencyState) :
    (rateStep3 fetchSingle hasApiKey now ttl f t s).2.logs = s.logs := by
  unfold rateStep3
  cases fetchRateFromApi fetchSingle hasApiKey f t with
  | none => exact rateStep4_logs s f t
  | some r =>
      by_cases hr : r = 0
      · simp only [hr, if_pos rfl]
        exact rateStep4_logs s f t
      · simp only [hr, if_neg hr]
        show (cacheRate now ttl f t r (saveRateToDb now f t r s)).logs = s.logs
        rw [cacheRate_logs]
        unfold saveRateToDb
        dsimp only
        split <;> rfl

theorem rateStep2_logs (fetchSingle : String → String → Option Rat) (hasApiKey : Bool)
    (now ttl : Int) (f t : String) (s : CurrencyState) :
    (rateStep2 fetchSingle hasApiKey now ttl f t s).2.logs = s.logs := by
  unfold rateStep2
  cases getDbRate now s f t with
  | none => exact rateStep3_logs fetchSingle hasApiKey now ttl f t s
  | some r =>
      by_cases hr : r = 0
      · simp only [hr, if_pos rfl]
        exact rateStep3_logs fetchSingle hasApiKey now ttl f t s
      · simp [hr, cacheRate]

theorem getExchangeRate_logs (fetchSingle : String → String → Option Rat) (hasApiKey : Bool)
    (now ttl : Int) (f t : String) (s : CurrencyState) :
    (getExchangeRate fetchSingle hasApiKey now ttl f t s).2.logs = s.logs := by
  unfold getExchangeRate
  by_cases hft : f == t
  · simp [hft]
  · simp only [hft, Bool.false_eq_true, if_false]
    cases cacheGet now s.cache (rateCacheKey f t) with
    | none => exact rateStep2_logs fetchSingle hasApiKey now ttl f t s
    | some r =>
        by_cases hr : r = 0
        · simp only [hr, if_pos rfl]
          exact rateStep2_logs fetchSingle hasApiKey now ttl f t s
        · simp [hr]

/-! ## Claim theorems -/

/-- Claim C1: posting an income of amount X through the transaction
serializer increases the primary account's balance by X; posting an
expense decreases it by X; posting a transfer decreases the source by X,
increases the target by X, and stores exactly one mirrored income
transaction on the target account with origin transfer and the same
amount and currency, in addition to the outgoing transaction. -/
theorem c1_posting_balance_effects (s : LedgerState) (t : Txn) (mid : Nat) (b : Nat) :
    (t.txType = .income →
      (serializerCreate mid t s).balances t.account = s.balances t.account + t.amount ∧
      (serializerCreate mid t s).txns = s.txns ++ [t]) ∧
    (t.txType = .expense →
      (serializerCreate mid t s).balances t.account = s.balances t.account - t.amount ∧
      (serializerCreate mid t s).txns = s.txns ++ [t]) ∧
    (t.txType = .transfer → t.targetAccount = some b → b ≠ t.account →
      (serializerCreate mid t s).balances t.account = s.balances t.account - t.amount ∧
      (serializerCreate mid t s).balances b = s.balances b + t.amount ∧
      (serializerCreate mid t s).txns = s.txns ++ [t, mirrorTxn mid t] ∧
      (mirrorTxn mid t).account = b ∧ (mirrorTxn mid t).txType = .income ∧
      (mirrorTxn mid t).origin = .transfer ∧ (mirrorTxn mid t).amount = t.amount ∧
      (mirrorTxn mid t).currency = t.currency) := by
  refine ⟨?_, ?_, ?_⟩
  · intro h
    constructor
    · simp [serializerCreate, updateAccountBalance, h]
    · simp [serializerCreate, updateAccountBalance, h]
  · intro h
    constructor
    · simp [serializerCreate, updateAccountBalance, h, sub_eq_add_neg]
    · simp [serializerCreate, updateAccountBalance, h]
  · intro h htgt hb
    have hmacc : (mirrorTxn mid t).account = b := by simp [mirrorTxn, htgt]
    refine ⟨?_, ?_, ?_, hmacc, rfl, rfl, rfl, rfl⟩
    · simp [serializerCreate, updateAccountBalance, createTransferCounterpart, h, hmacc,
        (Ne.symm hb), sub_eq_add_neg]
    · simp [serializerCreate, updateAccountBalance, createTransferCounterpart, h, hmacc, hb]
    · simp [serializerCreate, updateAccountBalance, createTransferCounterpart, h]

/-- Concrete transfer of 75 from account 1 to account 2. -/
def c1Txn : Txn :=
  { txid := 10
    account := 1
    targetAccount := some 2
    date := ⟨2025, 1, 1⟩
    amount := 75
    currency := "ARS"
    txType := .transfer
    origin := .manual
    cardPurchase := none
    isConfirmed := true }

/-- Concrete ledger: account 1 holds 500, account 2 holds 20. -/
def c1State : LedgerState :=
  { balances := fun a => if a = 1 then 500 else if a = 2 then 20 else 0
    allowsNegative := fun _ => false
    txns := [] }

/-- Claim C1 witness: posting the concrete 75-unit transfer moves 75 from
account 1 to account 2 and stores exactly the outgoing leg plus its
mirror. -/
theorem c1_posting_witness :
    (serializerCreate 11 c1Txn c1State).balances c1Txn.account
        = c1State.balances c1Txn.account - c1Txn.amount ∧
    (serializerCreate 11 c1Txn c1State).balances 2 = c1State.balances 2 + c1Txn.amount ∧
    (serializerCreate 11 c1Txn c1State).txns = c1State.txns ++ [c1Txn, mirrorTxn 11 c1Txn] ∧
    (mirrorTxn 11 c1Txn).account = 2 ∧ (mirrorTxn 11 c1Txn).txType = .income ∧
    (mirrorTxn 11 c1Txn).origin = .transfer ∧ (mirrorTxn 11 c1Txn).amount = c1Txn.amount ∧
    (mirrorTxn 11 c1Txn).currency = c1Txn.currency :=
  (c1_posting_balance_effects c1State c1Txn 11 2).2.2 rfl rfl (by decide)

/-- Claim C9: updating a transfer reverses and reapplies the balance delta
only on the source account; the target account's balance and the
previously created mirror transaction are left unchanged, so after an
amount change the mirror no longer matches the outgoing leg. -/
theorem c9_transfer_update_frame (s : LedgerState) (old nt m : Txn) (b : Nat)
    (hold : old.txType = .transfer) (hnt : nt.txType = .transfer)
    (hacc : nt.account = old.account) (_htgt : old.targetAccount = some b)
    (hb : b ≠ old.account) (hm : m ∈ s.txns) (hmid : m.txid ≠ old.txid) :
    (serializerUpdate old nt s).balances b = s.balances b ∧
    (serializerUpdate old nt s).balances old.account
      = s.balances old.account + old.amount - nt.amount ∧
    m ∈ (serializerUpdate old nt s).txns ∧
    (m.amount = old.amount → nt.amount ≠ old.amount → m.amount ≠ nt.amount) := by
  refine ⟨?_, ?_, ?_, ?_⟩
  · simp [serializerUpdate, updateAccountBalance, replaceTxn, hold, hnt, hacc, hb]
  · simp [serializerUpdate, updateAccountBalance, replaceTxn, hold, hnt, hacc]
    ring
  · have hmem := List.mem_map_of_mem
      (fun y : Txn => if y.txid = old.txid then nt else y) hm
    simp only [serializerUpdate, updateAccountBalance, replaceTxn]
    simpa [hmid] using hmem
  · intro h1 h2
    rw [h1]
    intro he
    exact h2 he.symm

/-- Concrete updated transfer: the amount of `c1Txn` changed from 75 to
120. -/
def c9NewTxn : Txn := { c1Txn with amount := 120 }

/-- Concrete ledger state as it stands after `c1Txn` was posted. -/
def c9State : LedgerState :=
  { balances := fun a => if a = 1 then 425 else if a = 2 then 95 else 0
    allowsNegative := fun _ => false
    txns := [c1Txn, mirrorTxn 11 c1Txn] }

/-- Claim C9 witness: changing the concrete transfer's amount from 75 to
120 adjusts only the source balance; the target balance and the stored
mirror keep their old values, and the mirror's 75 no longer matches the
new 120. -/
theorem c9_transfer_update_witness :
    (serializerUpdate c1Txn c9NewTxn c9State).balances 2 = c9State.balances 2 ∧
    (serializerUpdate c1Txn c9NewTxn c9State).balances c1Txn.account
      = c9State.balances c1Txn.account + c1Txn.amount - c9NewTxn.amount ∧
    mirrorTxn 11 c1Txn ∈ (serializerUpdate c1Txn c9NewTxn c9State).txns ∧
    (mirrorTxn 11 c1Txn).amount ≠ c9NewTxn.amount := by
  have h := c9_transfer_update_frame c9State c1Txn c9NewTxn (mirrorTxn 11 c1Txn) 2
    rfl rfl rfl rfl (by decide) (by simp [c9State]) (by decide)
  exact ⟨h.1, h.2.1, h.2.2.1, h.2.2.2 rfl (by norm_num [c9NewTxn, c1Txn])⟩

/-- Concrete unconfirmed installment expense of 40 on account 1. -/
def c4Txn : Txn :=
  { txid := 7
    account := 1
    targetAccount := none
    date := ⟨2025, 3, 1⟩
    amount := 40
    currency := "ARS"
    txType := .expense
    origin := .installment
    cardPurchase := some 1
    isConfirmed := false }

/-- Concrete ledger: account 1 holds 100 and the pending installment is
stored. -/
def c4State : LedgerState :=
  { balances := fun a => if a = 1 then 100 else 0
    allowsNegative := fun _ => false
    txns := [c4Txn] }

/-- Claim C4 counterexample: confirming the pending 40-unit installment
expense on the 100-balance account marks it confirmed but leaves the
balance at 100; the balance effect (which would give 60) is not
applied, so confirming is not a posting event. -/
theorem c4_confirm_counterexample :
    (confirmTransaction 7 c4State).txns = [{ c4Txn with isConfirmed := true }] ∧
    (confirmTransaction 7 c4State).balances 1 = 100 ∧
    c4State.balances 1 - c4Txn.amount = 60 ∧
    (100 : Rat) ≠ 60 := by
  refine ⟨?_, ?_, ?_, ?_⟩
  · simp [confirmTransaction, c4State, c4Txn]
  · norm_num [confirmTransaction, c4State]
  · norm_num [c4State, c4Txn]
  · norm_num

/-- Claim C4 as amended: generated installment transactions leave every
account balance unchanged when created, and confirming a transaction
only sets its confirmed flag, applying no balance effect. -/
theorem c4_confirmation_amended (cp : CardPurchase) (baseId : Nat) (s : LedgerState)
    (a txId : Nat) :
    (generateInstallmentTransactions cp baseId s).balances a = s.balances a ∧
    (confirmTransaction txId s).balances a = s.balances a ∧
    (∀ x ∈ s.txns, x.txid = txId →
      { x with isConfirmed := true } ∈ (confirmTransaction txId s).txns) := by
  refine ⟨rfl, rfl, ?_⟩
  intro x hx hid
  have hmem := List.mem_map_of_mem
    (fun y : Txn => if y.txid = txId then { y with isConfirmed := true } else y) hx
  simpa [confirmTransaction, hid] using hmem

/-- Concrete card purchase used to instantiate installment-related
theorems: 1200 over 12 installments at zero interest. -/
def demoPurchase : CardPurchase :=
  { pid := 1
    account := 1
    totalAmount := 1200
    currency := "ARS"
    totalInstallments := 12
    installmentAmount := 100
    interestRate := 0
    totalWithInterest := 1200
    firstInstallmentDate := ⟨2025, 2, 1⟩
    purchaseDate := ⟨2025, 1, 15⟩
    currentInstallment := 0 }

/-- Claim C4 witness: on the concrete pending installment, generation and
confirmation leave the balance of account 1 untouched and confirmation
stores the flagged row. -/
theorem c4_confirmation_witness :
    (generateInstallmentTransactions demoPurchase 20 c4State).balances 1
      = c4State.balances 1 ∧
    (confirmTransaction 7 c4State).balances 1 = c4State.balances 1 ∧
    { c4Txn with isConfirmed := true } ∈ (confirmTransaction 7 c4State).txns := by
  have h := c4_confirmation_amended demoPurchase 20 c4State 1 7
  exact ⟨h.1, h.2.1, h.2.2 c4Txn (by simp [c4State]) rfl⟩

/-- Concrete bare expense of 100 on account 1. -/
def c5Txn : Txn :=
  { txid := 3
    account := 1
    targetAccount := none
    date := ⟨2025, 1, 10⟩
    amount := 100
    currency := "ARS"
    txType := .expense
    origin := .manual
    cardPurchase := none
    isConfirmed := true }

/-- Concrete ledger: account 1 holds 50 and its account-type forbids a
negative balance. -/
def c5State : LedgerState :=
  { balances := fun a => if a = 1 then 50 else 0
    allowsNegative := fun _ => false
    txns := [] }

/-- Claim C5 evaluation at the failing input: posting a bare expense of
100 against the 50-balance account whose account-type forbids negative
balances is not rejected; the transaction is stored and the balance
ends at -50, a state the code's own `Account.clean` validation calls
invalid. -/
theorem c5_negative_balance_not_rejected :
    c5State.allowsNegative 1 = false ∧
    (serializerCreate 99 c5Txn c5State).balances 1 = -50 ∧
    (serializerCreate 99 c5Txn c5State).txns = [c5Txn] ∧
    accountCleanOk ((serializerCreate 99 c5Txn c5State).balances 1)
      ((serializerCreate 99 c5Txn c5State).allowsNegative 1) = false := by
  have hbal : (serializerCreate 99 c5Txn c5State).balances 1 = -50 := by
    simp [serializerCreate, updateAccountBalance, c5Txn, c5State]
    norm_num
  refine ⟨rfl, hbal, ?_, ?_⟩
  · simp [serializerCreate, updateAccountBalance, c5Txn, c5State]
  · rw [hbal]
    have hneg : (serializerCreate 99 c5Txn c5State).allowsNegative 1 = false := by
      simp [serializerCreate, updateAccountBalance, createTransferCounterpart, c5Txn, c5State]
    rw [hneg]
    simp [accountCleanOk]

/-- Claim C2: executing a due active auto-debit. With sufficient funds the
service posts exactly one confirmed expense transaction, subtracts the
amount, sets the last execution to today, increments the execution
count, resets the failed attempts and advances the next execution by
the frequency rule anchored on the new last execution. With
insufficient funds on an account that does not allow a negative
balance, no transaction is posted and the next execution is unchanged,
but `failed_attempts` grows by 2, not by 1: the guard records one
failed attempt and raises, and the generic exception handler of
`execute_auto_debit` catches that very exception and records a second
one. -/
theorem c2_auto_debit_execution (today : Date) (txId : Nat) (ad : AutoDebit) (s : LedgerState)
    (hcan : canExecute today ad = true) :
    (s.balances ad.account < ad.amount → s.allowsNegative ad.account = false →
      executeAutoDebit today txId ad s =
        (.error "Saldo insuficiente para ejecutar el debito",
         { ad with failedAttempts := ad.failedAttempts + 2 }, s)) ∧
    (¬ (s.balances ad.account < ad.amount ∧ s.allowsNegative ad.account = false) →
      executeAutoDebit today txId ad s =
        (.ok
          { txid := txId
            account := ad.account
            targetAccount := none
            date := today
            amount := ad.amount
            currency := ad.currency
            txType := .expense
            origin := .autoDebit
            cardPurchase := none
            isConfirmed := true },
         { ad with
            lastExecution := some today
            executionCount := ad.executionCount + 1
            failedAttempts := 0
            nextExecution := calculateNextExecution
              { ad with
                lastExecution := some today
                executionCount := ad.executionCount + 1
                failedAttempts := 0 } },
         { s with
            txns := s.txns ++
              [{ txid := txId
                 account := ad.account
                 targetAccount := none
                 date := today
                 amount := ad.amount
                 currency := ad.currency
                 txType := .expense
                 origin := .autoDebit
                 cardPurchase := none
                 isConfirmed := true }]
            balances := fun a =>
              if a = ad.account then s.balances a - ad.amount else s.balances a })) := by
  constructor
  · intro hlt hneg
    have hcond : (decide (s.balances ad.account < ad.amount) && !s.allowsNegative ad.account)
        = true := by
      rw [hneg]
      simp [hlt]
    simp only [executeAutoDebit, executeAutoDebitTry, hcan, Bool.not_true, Bool.false_eq_true,
      if_false, hcond, if_true]
  · intro hok
    have hcond : (decide (s.balances ad.account < ad.amount) && !s.allowsNegative ad.account)
        = false := by
      rcases Bool.eq_false_or_eq_true (s.allowsNegative ad.account) with hn | hn
      · simp [hn]
      · have hlt : ¬ s.balances ad.account < ad.amount := fun hc => hok ⟨hc, hn⟩
        simp [hlt]
    simp only [executeAutoDebit, executeAutoDebitTry, hcan, Bool.not_true, Bool.false_eq_true,
      if_false, hcond]

/-- Concrete due auto-debit of 100 on account 1. -/
def c2Debit : AutoDebit :=
  { name := "Internet"
    account := 1
    amount := 100
    currency := "ARS"
    frequency := .monthly
    startDate := ⟨2025, 1, 1⟩
    endDate := none
    nextExecution := ⟨2025, 1, 1⟩
    lastExecution := none
    status := .active
    executionCount := 0
    failedAttempts := 0
    dayOfMonth := none }

/-- Concrete ledger for the failing input: account 1 holds 50, less than
the 100 debit, and its account-type forbids a negative balance. -/
def c2State : LedgerState :=
  { balances := fun a => if a = 1 then 50 else 0
    allowsNegative := fun _ => false
    txns := [] }

/-- Claim C2 witness: on the concrete insufficient-funds input the
execution fails, posts nothing, leaves the next execution unchanged
and leaves `failed_attempts` at 2 instead of the claimed 1. -/
theorem c2_auto_debit_witness :
    executeAutoDebit ⟨2025, 1, 15⟩ 0 c2Debit c2State =
      (.error "Saldo insuficiente para ejecutar el debito",
       { c2Debit with failedAttempts := c2Debit.failedAttempts + 2 }, c2State) ∧
    ({ c2Debit with failedAttempts := c2Debit.failedAttempts + 2 }).nextExecution
      = c2Debit.nextExecution ∧
    ({ c2Debit with failedAttempts := c2Debit.failedAttempts + 2 }).failedAttempts
      ≠ c2Debit.failedAttempts + 1 := by
  refine ⟨?_, rfl, by decide⟩
  exact (c2_auto_debit_execution ⟨2025, 1, 15⟩ 0 c2Debit c2State (by decide)).1
    (by norm_num [c2Debit, c2State]) rfl

/-- Claim C10 counterexample: the batch pass selects an active auto-debit
whose end date has passed (end date before today, next execution due),
attempts it, counts it as failed with a per-item error, posts no
transaction, and leaves its `failed_attempts` at 0 — it is not
incremented as the claim states, because the `can_execute` guard
raises before the `try` block that does the incrementing. -/
theorem c10_end_dated_counterexample :
    executePendingDebits ⟨2025, 6, 1⟩ 0
        [{ c2Debit with endDate := some ⟨2025, 3, 31⟩ }] c2State =
      (⟨0, 1, [("Internet", "El debito no puede ejecutarse")]⟩,
       [{ c2Debit with endDate := some ⟨2025, 3, 31⟩ }], c2State) ∧
    ({ c2Debit with endDate := some ⟨2025, 3, 31⟩ }).failedAttempts = 0 ∧
    (0 : Nat) ≠ 0 + 1 := by
  refine ⟨?_, rfl, by decide⟩
  have hguard : canExecute ⟨2025, 6, 1⟩ { c2Debit with endDate := some ⟨2025, 3, 31⟩ }
      = false := by decide
  have hpend : isPendingDebit ⟨2025, 6, 1⟩ { c2Debit with endDate := some ⟨2025, 3, 31⟩ }
      = true := by decide
  simp only [executePendingDebits, List.filter, hpend, runPendingAux, executeAutoDebit, hguard,
    Bool.not_false, if_true]
  rfl

/-- Claim C10 as amended: the batch pass selects auto-debits only by
active status and due next-execution, without checking the end date;
an active due auto-debit whose end date is already past is still
attempted, posts no transaction, is counted in the failed total with a
per-item error, and keeps its `failed_attempts` unchanged (the guard
raises before the handler that increments the counter). -/
theorem c10_end_dated_amended (today : Date) (baseTxId : Nat) (ad : AutoDebit)
    (s : LedgerState) (e : Date) (hst : ad.status = .active)
    (hdue : dateLe ad.nextExecution today = true)
    (hend : ad.endDate = some e) (hpast : dateLe today e = false) :
    executePendingDebits today baseTxId [ad] s =
      (⟨0, 1, [(ad.name, "El debito no puede ejecutarse")]⟩, [ad], s) := by
  have hpend : isPendingDebit today ad = true := by
    simp [isPendingDebit, hst, hdue]
  have hguard : canExecute today ad = false := by
    simp [canExecute, hend, hpast]
  simp only [executePendingDebits, List.filter, hpend, runPendingAux, executeAutoDebit, hguard,
    Bool.not_false, if_true]
  rfl

/-- Claim C10 amended witness: the concrete end-dated auto-debit is
attempted and reported failed with its error, while nothing else
changes. -/
theorem c10_end_dated_witness :
    executePendingDebits ⟨2025, 6, 2⟩ 3
        [{ c2Debit with endDate := some ⟨2025, 4, 30⟩ }] c2State =
      (⟨0, 1, [("Internet", "El debito no puede ejecutarse")]⟩,
       [{ c2Debit with endDate := some ⟨2025, 4, 30⟩ }], c2State) :=
  c10_end_dated_amended ⟨2025, 6, 2⟩ 3 { c2Debit with endDate := some ⟨2025, 4, 30⟩ }
    c2State ⟨2025, 4, 30⟩ rfl (by decide) rfl (by decide)

/-- Claim C3: for an ordered pair of distinct currencies, rate resolution
tries the cache, the recent persisted rate, the external source and the
inverse persisted rate in that order, first hit wins; a recent
persisted hit refreshes the cache without touching the rate history or
the logs; an external hit is persisted and cached; an inverse hit is
the reciprocal of the latest persisted reversed-pair rate when that
rate is strictly positive, and changes no state at all; and when every
step misses, resolution returns no rate rather than defaulting to 1. -/
theorem c3_rate_resolution_chain (fetchSingle : String → String → Option Rat) (hasApiKey : Bool)
    (now ttl : Int) (f t : String) (s : CurrencyState) (hft : f ≠ t) :
    (∀ r : Rat, cacheGet now s.cache (rateCacheKey f t) = some r → r ≠ 0 →
      getExchangeRate fetchSingle hasApiKey now ttl f t s = (some r, s)) ∧
    (truthy (cacheGet now s.cache (rateCacheKey f t)) = false →
      ∀ r : Rat, getDbRate now s f t = some r → r ≠ 0 →
        getExchangeRate fetchSingle hasApiKey now ttl f t s = (some r, cacheRate now ttl f t r s) ∧
        (cacheRate now ttl f t r s).dbRates = s.dbRates ∧
        (cacheRate now ttl f t r s).logs = s.logs) ∧
    (truthy (cacheGet now s.cache (rateCacheKey f t)) = false →
      truthy (getDbRate now s f t) = false →
      ∀ r : Rat, fetchRateFromApi fetchSingle hasApiKey f t = some r → r ≠ 0 →
        getExchangeRate fetchSingle hasApiKey now ttl f t s =
          (some r, cacheRate now ttl f t r (saveRateToDb now f t r s))) ∧
    (truthy (cacheGet now s.cache (rateCacheKey f t)) = false →
      truthy (getDbRate now s f t) = false →
      truthy (fetchRateFromApi fetchSingle hasApiKey f t) = false →
      ∀ r : Rat, getInverseRate s f t = some r →
        getExchangeRate fetchSingle hasApiKey now ttl f t s = (some r, s)) ∧
    (truthy (cacheGet now s.cache (rateCacheKey f t)) = false →
      truthy (getDbRate now s f t) = false →
      truthy (fetchRateFromApi fetchSingle hasApiKey f t) = false →
      getInverseRate s f t = none →
      getExchangeRate fetchSingle hasApiKey now ttl f t s = (none, s)) ∧
    (∀ e : ExchangeRateRow,
      s.dbRates.find? (fun x => x.fromCode == t && x.toCode == f) = some e → 0 < e.rate →
      getInverseRate s f t = some (1 / e.rate)) := by
  have hfts : (f == t) = false := by
    simp [hft]
  have hcache : ∀ P : Option Rat × CurrencyState → Prop,
      truthy (cacheGet now s.cache (rateCacheKey f t)) = false →
      P (rateStep2 fetchSingle hasApiKey now ttl f t s) →
      P (getExchangeRate fetchSingle hasApiKey now ttl f t s) := by
    intro P hc hP
    unfold getExchangeRate
    rw [hfts]
    simp only [Bool.false_eq_true, if_false]
    cases hval : cacheGet now s.cache (rateCacheKey f t) with
    | none => exact hP
    | some r =>
        rw [hval] at hc
        have hr0 : r = 0 := by
          by_contra hne
          simp [truthy, hne] at hc
        dsimp only
        rw [if_pos hr0]
        exact hP
  have hdb : ∀ P : Option Rat × CurrencyState → Prop,
      truthy (getDbRate now s f t) = false →
      P (rateStep3 fetchSingle hasApiKey now ttl f t s) →
      P (rateStep2 fetchSingle hasApiKey now ttl f t s) := by
    intro P hc hP
    unfold rateStep2
    cases hval : getDbRate now s f t with
    | none => exact hP
    | some r =>
        rw [hval] at hc
        have hr0 : r = 0 := by
          by_contra hne
          simp [truthy, hne] at hc
        dsimp only
        rw [if_pos hr0]
        exact hP
  have hapi : ∀ P : Option Rat × CurrencyState → Prop,
      truthy (fetchRateFromApi fetchSingle hasApiKey f t) = false →
      P (rateStep4 s f t) →
      P (rateStep3 fetchSingle hasApiKey now ttl f t s) := by
    intro P hc hP
    unfold rateStep3
    cases hval : fetchRateFromApi fetchSingle hasApiKey f t with
    | none => exact hP
    | some r =>
        rw [hval] at hc
        have hr0 : r = 0 := by
          by_contra hne
          simp [truthy, hne] at hc
        dsimp only
        rw [if_pos hr0]
        exact hP
  refine ⟨?_, ?_, ?_, ?_, ?_, ?_⟩
  · intro r hr hr0
    unfold getExchangeRate
    rw [hfts]
    simp only [Bool.false_eq_true, if_false, hr, hr0, if_neg hr0]
  · intro hc r hr hr0
    refine ⟨?_, rfl, rfl⟩
    refine hcache (fun p => p = (some r, cacheRate now ttl f t r s)) hc ?_
    unfold rateStep2
    rw [hr]
    simp only [if_neg hr0]
  · intro hc hd r hr hr0
    refine hcache (fun p => p = (some r, cacheRate now ttl f t r (saveRateToDb now f t r s))) hc
      (hdb (fun p => p = (some r, cacheRate now ttl f t r (saveRateToDb now f t r s))) hd ?_)
    unfold rateStep3
    rw [hr]
    simp only [if_neg hr0]
  · intro hc hd ha r hr
    refine hcache (fun p => p = (some r, s)) hc
      (hdb (fun p => p = (some r, s)) hd (hapi (fun p => p = (some r, s)) ha ?_))
    unfold rateStep4
    rw [hr]
    have hr0 : r ≠ 0 := by
      unfold getInverseRate at hr
      cases hfind : s.dbRates.find? (fun e => e.fromCode == t && e.toCode == f) with
      | none => rw [hfind] at hr; exact absurd hr (by simp)
      | some e =>
          rw [hfind] at hr
          dsimp only at hr
          by_cases hpos : e.rate > 0
          · rw [if_pos hpos] at hr
            have h1 : (1 : Rat) / e.rate ≠ 0 := by
              simp only [ne_eq, div_eq_zero_iff, not_or]
              exact ⟨one_ne_zero, ne_of_gt hpos⟩
            cases hr
            exact h1
          · rw [if_neg hpos] at hr
            exact absurd hr (by simp)
    simp only [if_neg hr0]
  · intro hc hd ha hr
    refine hcache (fun p => p = (none, s)) hc
      (hdb (fun p => p = (none, s)) hd (hapi (fun p => p = (none, s)) ha ?_))
    unfold rateStep4
    rw [hr]
  · intro e he hpos
    unfold getInverseRate
    rw [he]
    dsimp only
    rw [if_pos hpos]

/-- External-source oracle that always fails, modelling a provider
outage. -/
def noFetch : String → String → Option Rat := fun _ _ => none

/-- Concrete currency state holding only an old persisted ARS to USD rate
of 1/850: empty cache, empty log, standard precisions. -/
def c3State : CurrencyState :=
  { cache := []
    dbRates := [⟨"ARS", "USD", 1 / 850, -100⟩]
    logs := []
    decimalPlaces := [("ARS", 2), ("USD", 2)] }

/-- Claim C3 witness: with an empty cache, no recent USD to ARS rate, a
failing provider and only the old ARS to USD persisted rate of 1/850,
resolving USD to ARS falls through to the inverse step and returns 850
without changing any state. -/
theorem c3_rate_resolution_witness :
    getInverseRate c3State "USD" "ARS" = some 850 ∧
    getExchangeRate noFetch false 0 900 "USD" "ARS" c3State = (some 850, c3State) := by
  have hinv : getInverseRate c3State "USD" "ARS" = some 850 := by
    have hfind : c3State.dbRates.find?
        (fun e => e.fromCode == "ARS" && e.toCode == "USD") = some ⟨"ARS", "USD", 1 / 850, -100⟩ := by
      simp [c3State]
    have h := (c3_rate_resolution_chain noFetch false 0 900 "USD" "ARS" c3State
      (by decide)).2.2.2.2.2 ⟨"ARS", "USD", 1 / 850, -100⟩ hfind (by norm_num)
    rw [h]
    norm_num
  refine ⟨hinv, ?_⟩
  exact (c3_rate_resolution_chain noFetch false 0 900 "USD" "ARS" c3State
    (by decide)).2.2.2.1 rfl rfl rfl 850 hinv

/-- Claim C6 (amended): a cross-currency convert that resolves a rate
appends exactly one conversion-log row with the original amount, the
rounded converted amount and the rate used; a same-currency convert
returns the amount with no log row; and when rate resolution fails the
convert fails with a rate-unavailable error and writes no log row. -/
theorem c6_convert_logging (fetchSingle : String → String → Option Rat) (hasApiKey : Bool)
    (now ttl : Int) (amount : Rat) (f t context userId : String) (s : CurrencyState) :
    (f = t →
      convertAmount fetchSingle hasApiKey now ttl amount f t context userId s = (.ok amount, s)) ∧
    (f ≠ t → ∀ (r : Rat) (s1 : CurrencyState),
      getExchangeRate fetchSingle hasApiKey now ttl f t s = (some r, s1) → r ≠ 0 →
      convertAmount fetchSingle hasApiKey now ttl amount f t context userId s =
        (.ok (roundHalfUp (amount * r) (currencyDecimalPlaces s1 t)),
         logConversion f t amount (roundHalfUp (amount * r) (currencyDecimalPlaces s1 t)) r
           context userId s1) ∧
      (logConversion f t amount (roundHalfUp (amount * r) (currencyDecimalPlaces s1 t)) r
          context userId s1).logs =
        s.logs ++ [⟨f, t, amount, roundHalfUp (amount * r) (currencyDecimalPlaces s1 t), r,
          context, userId⟩]) ∧
    (f ≠ t → ∀ s1 : CurrencyState,
      getExchangeRate fetchSingle hasApiKey now ttl f t s = (none, s1) →
      convertAmount fetchSingle hasApiKey now ttl amount f t context userId s =
        (.error "rate unavailable", s1) ∧
      s1.logs = s.logs) := by
  refine ⟨?_, ?_, ?_⟩
  · intro h
    unfold convertAmount
    rw [if_pos (by simp [h])]
  · intro hft r s1 hrate hr0
    have hfts : (f == t) = false := by simp [hft]
    have hlogs : s1.logs = s.logs := by
      have h := getExchangeRate_logs fetchSingle hasApiKey now ttl f t s
      rw [hrate] at h
      exact h
    constructor
    · unfold convertAmount
      rw [hfts]
      simp only [Bool.false_eq_true, if_false, hrate]
      have htr : truthy (some r) = true := by simp [truthy, hr0]
      rw [htr]
      simp only [Bool.not_true, Bool.false_eq_true, if_false, Option.getD_some]
    · unfold logConversion
      rw [hlogs]
  · intro hft s1 hrate
    have hfts : (f == t) = false := by simp [hft]
    have hlogs : s1.logs = s.logs := by
      have h := getExchangeRate_logs fetchSingle hasApiKey now ttl f t s
      rw [hrate] at h
      exact h
    refine ⟨?_, hlogs⟩
    unfold convertAmount
    rw [hfts]
    simp only [Bool.false_eq_true, if_false, hrate, truthy, Bool.not_false, if_true]

/-- Concrete currency state with a recent persisted USD to ARS rate of 850
and empty cache and log. -/
def c6State : CurrencyState :=
  { cache := []
    dbRates := [⟨"USD", "ARS", 850, 0⟩]
    logs := []
    decimalPlaces := [("ARS", 2), ("USD", 2)] }

/-- Claim C6 counterexample: a same-currency convert succeeds and appends
no conversion-log row at all, not the exactly-one row the claim
demands. -/
theorem c6_same_currency_no_log_counterexample :
    convertAmount noFetch false 10 900 100 "ARS" "ARS" "general" "" c6State =
      (.ok 100, c6State) ∧
    (convertAmount noFetch false 10 900 100 "ARS" "ARS" "general" "" c6State).2.logs.length = 0 ∧
    c6State.logs.length + 1 = 1 ∧
    (0 : Nat) ≠ 1 := by
  refine ⟨rfl, rfl, rfl, by decide⟩

/-- Claim C6 witness: converting 100 USD to ARS with the recent persisted
rate 850 succeeds and appends exactly one log row carrying the original
100, the rounded 85000 and the rate 850. -/
theorem c6_convert_logging_witness :
    convertAmount noFetch false 10 900 100 "USD" "ARS" "general" "" c6State =
      (.ok (roundHalfUp (100 * 850) (currencyDecimalPlaces (cacheRate 10 900 "USD" "ARS" 850 c6State) "ARS")),
       logConversion "USD" "ARS" 100
         (roundHalfUp (100 * 850) (currencyDecimalPlaces (cacheRate 10 900 "USD" "ARS" 850 c6State) "ARS"))
         850 "general" "" (cacheRate 10 900 "USD" "ARS" 850 c6State)) ∧
    (logConversion "USD" "ARS" 100
        (roundHalfUp (100 * 850) (currencyDecimalPlaces (cacheRate 10 900 "USD" "ARS" 850 c6State) "ARS"))
        850 "general" "" (cacheRate 10 900 "USD" "ARS" 850 c6State)).logs =
      c6State.logs ++ [⟨"USD", "ARS", 100,
        roundHalfUp (100 * 850) (currencyDecimalPlaces (cacheRate 10 900 "USD" "ARS" 850 c6State) "ARS"),
        850, "general", ""⟩] := by
  have hrate : getExchangeRate noFetch false 10 900 "USD" "ARS" c6State =
      (some 850, cacheRate 10 900 "USD" "ARS" 850 c6State) := by
    have hdbr : getDbRate 10 c6State "USD" "ARS" = some 850 := by
      simp [getDbRate, c6State]
    unfold getExchangeRate rateStep2
    rw [hdbr]
    norm_num [cacheGet, c6State, rateCacheKey]
    decide
  exact (c6_convert_logging noFetch false 10 900 100 "USD" "ARS" "general" "" c6State).2.1
    (by decide) 850 (cacheRate 10 900 "USD" "ARS" 850 c6State) hrate (by norm_num)

/-- Concrete currency state with ARS configured at 2 decimal places. -/
def c7State : CurrencyState :=
  { cache := []
    dbRates := []
    logs := []
    decimalPlaces := [("ARS", 2)] }

/-- Claim C7 evaluation at the failing input: a same-currency convert of
123.456789 ARS returns 123.456789 unchanged, although ARS is configured
with 2 decimal places and half-up rounding at that precision gives
123.46 — the short-circuit in `convert_amount` skips the rounding the
claim (and the repository's own `test_decimal_precision`) requires. -/
theorem c7_same_currency_rounding_bug :
    convertAmount noFetch false 0 900 (123456789 / 1000000) "ARS" "ARS" "general" "" c7State =
      (.ok (123456789 / 1000000), c7State) ∧
    currencyDecimalPlaces c7State "ARS" = 2 ∧
    roundHalfUp (123456789 / 1000000) 2 = 12346 / 100 ∧
    ((123456789 : Rat) / 1000000) ≠ 12346 / 100 := by
  refine ⟨rfl, rfl, ?_, by norm_num⟩
  have hfloor : ⌊((123456789 : Rat) / 1000000) * (10 : Rat) ^ 2 + 1 / 2⌋ = 12346 := by
    have h1 : ((12346 : Int) : Rat) ≤ 123456789 / 1000000 * (10 : Rat) ^ 2 + 1 / 2 := by
      norm_num
    have h2 : (123456789 : Rat) / 1000000 * (10 : Rat) ^ 2 + 1 / 2 < (12346 : Int) + 1 := by
      norm_num
    exact Int.floor_eq_iff.mpr ⟨h1, h2⟩
  simp only [roundHalfUp]
  rw [if_pos (by norm_num : ((123456789 : Rat) / 1000000) * (10 : Rat) ^ 2 ≥ 0), hfloor]
  norm_num

/-- A ledger with no accounts funded and no transactions. -/
def emptyLedger : LedgerState :=
  { balances := fun _ => 0
    allowsNegative := fun _ => false
    txns := [] }

/-- Claim C8: creating a card purchase computes the compound-interest
total when the monthly rate is positive and the plain principal
otherwise, divides it evenly into the per-installment amount, stores
one immediate confirmed expense transaction for the full principal
dated at the purchase date, and generates exactly `installments`
unconfirmed installment transactions of the per-installment amount,
dated one calendar month apart starting at the first installment date
and linked to the purchase, without touching any balance; in
particular 1200 over 12 installments at zero interest gives 12 pending
transactions of 100 each plus the immediate 1200 transaction. -/
theorem c8_card_purchase_generation :
    (∀ (pid baseId account : Nat) (totalAmount : Rat) (currency : String)
        (installments : Nat) (interestRate : Rat) (firstDate purchaseDate : Date)
        (s : LedgerState) (res : CardPurchase × LedgerState),
      res = cardPurchaseCreate pid baseId account totalAmount currency installments
          interestRate firstDate purchaseDate s →
      res.1.totalWithInterest =
        (if interestRate > 0 then totalAmount * (1 + interestRate / 100) ^ installments
         else totalAmount) ∧
      res.1.installmentAmount = res.1.totalWithInterest / (installments : Rat) ∧
      res.2.txns = s.txns ++
        { txid := baseId
          account := account
          targetAccount := none
          date := purchaseDate
          amount := totalAmount
          currency := currency
          txType := .expense
          origin := .card
          cardPurchase := none
          isConfirmed := true } ::
        generateInstallmentsAux res.1 (baseId + 1) firstDate installments ∧
      (generateInstallmentsAux res.1 (baseId + 1) firstDate installments).length
        = installments ∧
      (∀ j, j < installments →
        ((generateInstallmentsAux res.1 (baseId + 1) firstDate installments)[j]?).map
            installmentView =
          some (account, res.1.installmentAmount, currency, .expense, .installment,
            some pid, false, (fun dd => addMonths dd 1)^[j] firstDate)) ∧
      (∀ a, res.2.balances a = s.balances a)) ∧
    ((cardPurchaseCreate 1 10 1 1200 "ARS" 12 0 ⟨2025, 2, 1⟩ ⟨2025, 1, 15⟩ emptyLedger).1.totalWithInterest
        = 1200 ∧
      (cardPurchaseCreate 1 10 1 1200 "ARS" 12 0 ⟨2025, 2, 1⟩ ⟨2025, 1, 15⟩ emptyLedger).1.installmentAmount
        = 100 ∧
      (generateInstallmentsAux
          (cardPurchaseCreate 1 10 1 1200 "ARS" 12 0 ⟨2025, 2, 1⟩ ⟨2025, 1, 15⟩ emptyLedger).1
          11 ⟨2025, 2, 1⟩ 12).length = 12 ∧
      (∀ j, j < 12 →
        ((generateInstallmentsAux
            (cardPurchaseCreate 1 10 1 1200 "ARS" 12 0 ⟨2025, 2, 1⟩ ⟨2025, 1, 15⟩ emptyLedger).1
            11 ⟨2025, 2, 1⟩ 12)[j]?).map installmentView =
          some (1, 100, "ARS", .expense, .installment, some 1, false,
            (fun dd => addMonths dd 1)^[j] ⟨2025, 2, 1⟩)) ∧
      (cardPurchaseCreate 1 10 1 1200 "ARS" 12 0 ⟨2025, 2, 1⟩ ⟨2025, 1, 15⟩ emptyLedger).2.txns =
        { txid := 10
          account := 1
          targetAccount := none
          date := ⟨2025, 1, 15⟩
          amount := 1200
          currency := "ARS"
          txType := .expense
          origin := .card
          cardPurchase := none
          isConfirmed := true } ::
        generateInstallmentsAux
          (cardPurchaseCreate 1 10 1 1200 "ARS" 12 0 ⟨2025, 2, 1⟩ ⟨2025, 1, 15⟩ emptyLedger).1
          11 ⟨2025, 2, 1⟩ 12) := by
  have hgen : ∀ (pid baseId account : Nat) (totalAmount : Rat) (currency : String)
      (installments : Nat) (interestRate : Rat) (firstDate purchaseDate : Date)
      (s : LedgerState) (res : CardPurchase × LedgerState),
      res = cardPurchaseCreate pid baseId account totalAmount currency installments
          interestRate firstDate purchaseDate s →
      res.1.totalWithInterest =
        (if interestRate > 0 then totalAmount * (1 + interestRate / 100) ^ installments
         else totalAmount) ∧
      res.1.installmentAmount = res.1.totalWithInterest / (installments : Rat) ∧
      res.2.txns = s.txns ++
        { txid := baseId
          account := account
          targetAccount := none
          date := purchaseDate
          amount := totalAmount
          currency := currency
          txType := .expense
          origin := .card
          cardPurchase := none
          isConfirmed := true } ::
        generateInstallmentsAux res.1 (baseId + 1) firstDate installments ∧
      (generateInstallmentsAux res.1 (baseId + 1) firstDate installments).length
        = installments ∧
      (∀ j, j < installments →
        ((generateInstallmentsAux res.1 (baseId + 1) firstDate installments)[j]?).map
            installmentView =
          some (account, res.1.installmentAmount, currency, .expense, .installment,
            some pid, false, (fun dd => addMonths dd 1)^[j] firstDate)) ∧
      (∀ a, res.2.balances a = s.balances a) := by
    intro pid baseId account totalAmount currency installments interestRate firstDate
      purchaseDate s res hres
    subst hres
    refine ⟨rfl, rfl, ?_, generateInstallmentsAux_length _ _ _ _, ?_, fun a => rfl⟩
    · simp [cardPurchaseCreate, generateInstallmentTransactions]
    · intro j hj
      rw [generateInstallmentsAux_view _ _ installments firstDate j hj]
      rfl
  refine ⟨hgen, ?_⟩
  have h := hgen 1 10 1 1200 "ARS" 12 0 ⟨2025, 2, 1⟩ ⟨2025, 1, 15⟩ emptyLedger _ rfl
  have htotal : (cardPurchaseCreate 1 10 1 1200 "ARS" 12 0 ⟨2025, 2, 1⟩ ⟨2025, 1, 15⟩
      emptyLedger).1.totalWithInterest = 1200 := by
    rw [h.1]
    norm_num
  have hinst : (cardPurchaseCreate 1 10 1 1200 "ARS" 12 0 ⟨2025, 2, 1⟩ ⟨2025, 1, 15⟩
      emptyLedger).1.installmentAmount = 100 := by
    rw [h.2.1, htotal]
    norm_num
  refine ⟨htotal, hinst, h.2.2.2.1, ?_, ?_⟩
  · intro j hj
    rw [h.2.2.2.2.1 j hj, hinst]
  · have htx := h.2.2.1
    simpa [emptyLedger] using htx

/-- Claim C8 witness: instantiating the purchase creation at the concrete
1200-over-12 zero-interest input: the per-installment amount evaluates
to 100 and the first generated installment is the unconfirmed 100-unit
expense dated at the first installment date. -/
theorem c8_card_purchase_witness :
    (cardPurchaseCreate 2 30 5 1200 "ARS" 12 0 ⟨2025, 3, 10⟩ ⟨2025, 2, 20⟩ emptyLedger).1.installmentAmount
      = 100 ∧
    ((generateInstallmentsAux
        (cardPurchaseCreate 2 30 5 1200 "ARS" 12 0 ⟨2025, 3, 10⟩ ⟨2025, 2, 20⟩ emptyLedger).1
        31 ⟨2025, 3, 10⟩ 12)[0]?).map installmentView =
      some (5, (cardPurchaseCreate 2 30 5 1200 "ARS" 12 0 ⟨2025, 3, 10⟩ ⟨2025, 2, 20⟩
        emptyLedger).1.installmentAmount, "ARS", .expense, .installment, some 2, false,
        ⟨2025, 3, 10⟩) := by
  have h := c8_card_purchase_generation.1 2 30 5 1200 "ARS" 12 0 ⟨2025, 3, 10⟩ ⟨2025, 2, 20⟩
    emptyLedger _ rfl
  constructor
  · rw [h.2.1, h.1]
    norm_num
  · exact h.2.2.2.2.1 0 (by decide)

end FP2
